import Mathlib

/-!
Verification of the access-scoped query builder and the custom actions of
`PatientConsultationViewSet` / `PatientConsentViewSet`
(care/facility/api/viewsets/legacy/patient_consultation.py), against the
specification of the repository.

The Django ORM querysets are shallowly embedded as pure functions over
explicit lists of records; foreign-key traversals (`patient__facility__state`
etc.) become field projections on embedded structures; `Q` filters become
`Bool`-valued predicates; `get_object_or_404` and `raise NotFound` become
an `Except` error result.
-/

namespace Care

/-- A facility: an organizational unit with a state and a district
(spec section 3).  `id` is the primary key used by foreign-key comparisons. -/
structure Facility where
  id : Nat
  state : Nat
  district : Nat
deriving DecidableEq, Repr

/-- A patient: activity flag and facility affiliation (spec section 3).
`external_id` is the public identifier returned by `patient_from_asset`.
`assigned_to` is the optional id of a user the patient is assigned to;
the commented-out line 102 of the source would have used it. -/
structure Patient where
  external_id : Nat
  is_active : Bool
  facility : Facility
  assigned_to : Option Nat
deriving DecidableEq, Repr

/-- A consultation: references exactly one patient and one facility
(spec section 3).  `current_bed` is the id of the current `ConsultationBed`
assignment, if any; the discharge fields are populated on discharge. -/
structure Consultation where
  id : Nat
  external_id : Nat
  patient : Patient
  facility : Facility
  current_bed : Option Nat
  discharge_date : Option Nat
  discharge_reason : Option Nat
deriving DecidableEq, Repr

/-- A consent record: references exactly one consultation (by primary key)
and has an archived flag (spec section 3). -/
structure Consent where
  id : Nat
  consultation : Nat
  archived : Bool
deriving DecidableEq, Repr

/-- The requesting user, as consumed by the access policy: superuser flag,
role tier (`user_type`), state, district, optional home facility (by
facility id), and, for asset users, the id of the bound asset. -/
structure User where
  is_superuser : Bool
  user_type : Nat
  state : Nat
  district : Nat
  home_facility : Option Nat
deriving DecidableEq, Repr

/-- Modelled from the spec: the role-tier threshold
`User.TYPE_VALUE_MAP ["DistrictLabAdmin"]`.  `care.users.models` is not
among the visible sources; the spec only requires the ordered enumeration
`Staff < DistrictLabAdmin < StateLabAdmin`. -/
def districtLabAdminTier : Nat := 25

/-- Modelled from the spec: the role-tier threshold
`User.TYPE_VALUE_MAP ["StateLabAdmin"]` (see `districtLabAdminTier`). -/
def stateLabAdminTier : Nat := 35

/-- The access predicate of spec section 4.1, embedded from
`PatientConsultationViewSet.get_queryset` (source lines 87-103).
`allowed` is the accessible-facility set returned by the external resolver
`get_accessible_facilities` (a list of facility ids), injected as an
argument.  The ordered fallthrough of the source's early returns becomes a
nested `if`:
superuser -> match all; tier at or above StateLabAdmin -> same state;
tier at or above DistrictLabAdmin -> same district; otherwise
`(patient.is_active AND patient.facility in allowed) OR
(consultation.facility == user.home_facility)`. -/
def consultationPredicate (user : User) (allowed : List Nat)
    (c : Consultation) : Bool :=
  if user.is_superuser then
    true
  else if stateLabAdminTier ≤ user.user_type then
    c.patient.facility.state == user.state
  else if districtLabAdminTier ≤ user.user_type then
    c.patient.facility.district == user.district
  else
    (c.patient.is_active && allowed.contains c.patient.facility.id)
      || user.home_facility == some c.facility.id

/-- Replace the `assigned_to` attribute of a consultation's patient,
leaving every other attribute unchanged (used to state that the predicate
is insensitive to patient assignment). -/
def setAssignedTo (c : Consultation) (a : Option Nat) : Consultation :=
  { c with patient := { c.patient with assigned_to := a } }

/-! ## Beds and assets (for `patient_from_asset`) -/

/-- A bed; `external_id` is the public identifier serialized as `bed_id`. -/
structure Bed where
  id : Nat
  external_id : Nat
deriving DecidableEq, Repr

/-- A consultation-bed assignment: the bed, the M2M `assets` (asset ids)
and the `end_date`; `end_date = none` means the assignment is open. -/
structure ConsultationBed where
  id : Nat
  bed : Bed
  assets : List Nat
  end_date : Option Nat
deriving DecidableEq, Repr

/-- A physical asset bound to an asset user.  `beds` embeds
`asset.bed_set`, modelled from the spec as the ids of the beds linked to
the asset (the bed/asset link models are outside the visible sources). -/
structure Asset where
  id : Nat
  current_location : Nat
  beds : List Nat
deriving DecidableEq, Repr

/-- An `AssetBed` row as consumed by the preset filter of
`patient_from_asset`: the referenced asset's current location, the bed id,
and the `meta.preset_name` key (absent when the meta JSON lacks it). -/
structure AssetBedRow where
  id : Nat
  asset_location : Nat
  bed : Nat
  preset_name : Option String
deriving DecidableEq, Repr

/-- The stored records the embedded operations run over. -/
structure DB where
  consultations : List Consultation
  consents : List Consent
  consultationBeds : List ConsultationBed
  assetBeds : List AssetBedRow
deriving DecidableEq, Repr

/-- Errors surfaced by the embedded views: `NotFound` (raised explicitly or
by `get_object_or_404`), and `MultipleObjectsReturned` (propagated by the
ORM's `get` when a lookup matches more than one row). -/
inductive ApiError
  | notFound
  | multipleObjectsReturned
deriving DecidableEq, Repr

/-- An HTTP response: status code and optional body content. -/
structure HttpResponse where
  status : Nat
  body : Option String
deriving DecidableEq, Repr

/-! ## Ordering: `order_by("-id")` -/

/-- Insert `x` into a list sorted by strictly descending interest in
`key`, keeping the descending order. -/
def insertDesc (key : α → Nat) (x : α) : List α → List α
  | [] => [x]
  | y :: ys => if key y ≤ key x then x :: y :: ys else y :: insertDesc key x ys

/-- Sort a list by descending `key`: the embedding of the ORM's
`order_by("-id")` (with `key` the primary key, so ties do not arise in
well-formed stores). -/
def sortDesc (key : α → Nat) : List α → List α
  | [] => []
  | x :: xs => insertDesc key x (sortDesc key xs)

/-- `.order_by("-id").first()`: the head of the descending sort. -/
def firstDesc (key : α → Nat) (l : List α) : Option α :=
  (sortDesc key l).head?

/-! ## The embedded operations -/

/-- The consultation queryset of
`PatientConsultationViewSet.get_queryset`: all consultations ordered by
descending id and restricted by the section 4.1 predicate (the prefetches
of lines 76-86 do not change which rows are returned). -/
def list_consultations (db : DB) (user : User) (allowed : List Nat) :
    List Consultation :=
  sortDesc Consultation.id
    (db.consultations.filter (consultationPredicate user allowed))

/-- Modelled from the spec: `get_consultation_queryset`
(`care.utils.queryset.consultation`, not among the visible sources)
restricts consultations to those satisfying the section 4.1 access
predicate for the user. -/
def get_consultation_queryset (db : DB) (user : User) (allowed : List Nat) :
    List Consultation :=
  db.consultations.filter (consultationPredicate user allowed)

/-- The ORM `get` on a consultation queryset restricted to one
`external_id`: the unique match, `NotFound` when there is none (as raised
by `get_object_or_404` / `get_object`), an error when several match. -/
def getByExternalId (l : List Consultation) (e : Nat) :
    Except ApiError Consultation :=
  match l.filter (fun c => c.external_id == e) with
  | [] => .error .notFound
  | [c] => .ok c
  | _ => .error .multipleObjectsReturned

/-- `PatientConsentViewSet.get_consultation_obj` (source lines 186-191):
resolve the path-supplied consultation identifier inside the
access-restricted consultation queryset, 404 when invisible or absent. -/
def get_consultation_obj (db : DB) (user : User) (allowed : List Nat)
    (consultation_external_id : Nat) : Except ApiError Consultation :=
  getByExternalId (get_consultation_queryset db user allowed)
    consultation_external_id

/-- `PatientConsentViewSet.get_queryset` (source lines 193-194): the
consent records of the resolved consultation, or the resolution failure. -/
def consent_list (db : DB) (user : User) (allowed : List Nat)
    (consultation_external_id : Nat) : Except ApiError (List Consent) :=
  (get_consultation_obj db user allowed consultation_external_id).map
    fun obj => db.consents.filter (fun k => k.consultation == obj.id)

/-! ## Discharge action -/

/-- A validated discharge payload (validation itself is delegated to the
external serializer collaborator). -/
structure DischargePayload where
  discharge_date : Nat
  discharge_reason : Nat
deriving DecidableEq, Repr

/-- Modelled from the spec: the effect of
`PatientConsultationDischargeSerializer.save(current_bed=None)` (the
serializer is outside the visible sources; spec section 4.2: "discharged
(current_bed = null, discharge fields populated)").  The view itself
passes `current_bed=None` at source line 115. -/
def applyDischarge (c : Consultation) (d : DischargePayload) : Consultation :=
  { c with current_bed := none,
           discharge_date := some d.discharge_date,
           discharge_reason := some d.discharge_reason }

/-- The store after the resolved consultation `c` has been discharged with
payload `d` (the row with `c`'s primary key is rewritten in place). -/
def dischargedDB (db : DB) (c : Consultation) (d : DischargePayload) : DB :=
  let updated := db.consultations.map
    fun x => if x.id == c.id then applyDischarge x d else x
  { db with consultations := updated }

/-- `PatientConsultationViewSet.discharge_patient` (source lines 111-116):
resolve the consultation through the access-restricted queryset
(`self.get_object()`), apply the discharge, and answer 200 with no body. -/
def discharge_patient (db : DB) (user : User) (allowed : List Nat)
    (external_id : Nat) (d : DischargePayload) :
    Except ApiError (DB × HttpResponse) :=
  (getByExternalId (list_consultations db user allowed) external_id).map
    fun c => (dischargedDB db c d, ⟨200, none⟩)

/-! ## Asset-to-patient lookup -/

/-- The ORM `icontains` lookup on `meta.preset_name`: case-insensitive
substring match; a row whose meta lacks the key never matches. -/
def icontains (field : Option String) (needle : String) : Bool :=
  match field with
  | none => false
  | some s => decide (List.IsInfix needle.toLower.toList s.toLower.toList)

/-- The optional preset enrichment of `patient_from_asset` (source lines
147-153): `AssetBed` rows at the asset's current physical location, on the
resolved bed, whose preset name contains the query (no parameter: empty). -/
def presetAssetBeds (db : DB) (asset : Asset) (bedId : Nat)
    (preset_name : Option String) : List AssetBedRow :=
  match preset_name with
  | none => []
  | some pn => db.assetBeds.filter fun ab =>
      ab.asset_location == asset.current_location && ab.bed == bedId
        && icontains ab.preset_name pn

/-- The composite object serialized by `PatientConsultationIDSerializer`. -/
structure PatientFromAssetResult where
  patient_id : Nat
  consultation_id : Nat
  bed_id : Nat
  asset_beds : List AssetBedRow
deriving DecidableEq, Repr

/-- The `ConsultationBed` filter of `patient_from_asset` (source lines
123-128): the assignment references the caller's asset or a bed linked to
it, and is open (`end_date__isnull=True`). -/
def openAssignmentFor (asset : Asset) (cb : ConsultationBed) : Bool :=
  (cb.assets.contains asset.id || asset.beds.contains cb.bed.id)
    && cb.end_date == none

/-- The consultation filter of `patient_from_asset` (source lines
135-143): currently placed in the resolved bed, with an active patient. -/
def activeInBed (cb : ConsultationBed) (c : Consultation) : Bool :=
  c.current_bed == some cb.id && c.patient.is_active

/-- `PatientConsultationViewSet.patient_from_asset` (source lines 122-164):
take the most recent open consultation-bed assignment referencing the
caller's asset or a bed linked to it (`NotFound` when none), then the most
recent active-patient consultation currently placed in that bed
(`NotFound` when none), and serialize the composite object. -/
def patient_from_asset (db : DB) (asset : Asset)
    (preset_name : Option String) : Except ApiError PatientFromAssetResult :=
  match firstDesc ConsultationBed.id
      (db.consultationBeds.filter (openAssignmentFor asset)) with
  | none => .error .notFound
  | some cb =>
    match firstDesc Consultation.id
        (db.consultations.filter (activeInBed cb)) with
    | none => .error .notFound
    | some c =>
      .ok { patient_id := c.patient.external_id,
            consultation_id := c.external_id,
            bed_id := cb.bed.external_id,
            asset_beds := presetAssetBeds db asset cb.bed.id preset_name }

/-! ## Request transaction model (for the creation pathway) -/

/-- One step of a request body: a write to the store, or a failure. -/
inductive RequestStep
  | writeStep (key val : Nat)
  | failStep
deriving DecidableEq, Repr

/-- Run a request body against a store (an association list, most recent
write first), stopping at the first failure; returns the store reached and
whether the body completed. -/
def runSteps : List RequestStep → List (Nat × Nat) → List (Nat × Nat) × Bool
  | [], s => (s, true)
  | .writeStep k v :: rest, s => runSteps rest ((k, v) :: s)
  | .failStep :: _, s => (s, false)

/-- Modelled from the spec: the ambient all-or-nothing transaction wrapper
used elsewhere (`ATOMIC_REQUESTS`, an external framework collaborator):
when the body fails, the store is rolled back to its initial value. -/
def runAtomicRequest (steps : List RequestStep) (s : List (Nat × Nat)) :
    List (Nat × Nat) × Bool :=
  let r := runSteps steps s
  if r.2 then r else (s, false)

/-- A handler exempt from the wrapper keeps whatever was written before
the failure. -/
def runNonAtomicRequest (steps : List RequestStep) (s : List (Nat × Nat)) :
    List (Nat × Nat) × Bool :=
  runSteps steps s

/-- `PatientConsultationViewSet.create` is decorated
`@transaction.non_atomic_requests` (source lines 105-107): consultation
creation runs outside the ambient wrapper. -/
def createExemptFromAtomicRequests : Bool := true

/-- The creation pathway: exempt from the wrapper per the decorator. -/
def runCreateRequest (steps : List RequestStep) (s : List (Nat × Nat)) :
    List (Nat × Nat) × Bool :=
  if createExemptFromAtomicRequests then runNonAtomicRequest steps s
  else runAtomicRequest steps s

end Care

namespace Care

/-! ## Lemmas about the ordering and lookup helpers -/

theorem insertDesc_perm (key : α → Nat) (x : α) :
    ∀ l : List α, (insertDesc key x l).Perm (x :: l) := by
  intro l
  induction l with
  | nil => simp [insertDesc]
  | cons y ys ih =>
    simp only [insertDesc]
    split
    · exact List.Perm.refl _
    · exact (ih.cons y).trans (List.Perm.swap x y ys)

theorem sortDesc_perm (key : α → Nat) :
    ∀ l : List α, (sortDesc key l).Perm l := by
  intro l
  induction l with
  | nil => exact List.Perm.refl _
  | cons x xs ih =>
    exact (insertDesc_perm key x (sortDesc key xs)).trans (ih.cons x)

theorem mem_sortDesc {key : α → Nat} {a : α} {l : List α} :
    a ∈ sortDesc key l ↔ a ∈ l :=
  (sortDesc_perm key l).mem_iff

theorem sortDesc_eq_nil {key : α → Nat} {l : List α} :
    sortDesc key l = [] ↔ l = [] := by
  constructor
  · intro h
    cases l with
    | nil => rfl
    | cons x xs =>
      exact absurd (((sortDesc_perm key (x :: xs)).mem_iff).mpr
        (List.mem_cons_self x xs)) (by simp [h])
  · intro h; subst h; rfl

theorem sortDesc_head_max {key : α → Nat} :
    ∀ {l : List α} {x : α} {xs : List α}, sortDesc key l = x :: xs →
      ∀ y ∈ l, key y ≤ key x := by
  intro l
  induction l with
  | nil => intro x xs h; simp [sortDesc] at h
  | cons z zs ih =>
    intro x xs h y hy
    simp only [sortDesc] at h
    cases hz : sortDesc key zs with
    | nil =>
      rw [hz] at h
      simp only [insertDesc] at h
      obtain ⟨hx, -⟩ := List.cons.inj h
      have hzs : zs = [] := sortDesc_eq_nil.mp hz
      subst hzs
      rcases List.mem_singleton.mp hy with rfl
      exact hx ▸ Nat.le_refl _
    | cons w ws =>
      rw [hz] at h
      have hmax : ∀ u ∈ zs, key u ≤ key w := fun u hu => ih hz u hu
      simp only [insertDesc] at h
      split at h
      case isTrue hle =>
        obtain ⟨hx, -⟩ := List.cons.inj h
        subst hx
        rcases List.mem_cons.mp hy with rfl | hy2
        · exact Nat.le_refl _
        · exact Nat.le_trans (hmax y hy2) hle
      case isFalse hgt =>
        obtain ⟨hx, -⟩ := List.cons.inj h
        subst hx
        rcases List.mem_cons.mp hy with rfl | hy2
        · exact Nat.le_of_lt (Nat.lt_of_not_le hgt)
        · exact hmax y hy2

theorem firstDesc_eq_none {key : α → Nat} {l : List α} :
    firstDesc key l = none ↔ l = [] := by
  rw [firstDesc, List.head?_eq_none_iff, sortDesc_eq_nil]

theorem firstDesc_spec {key : α → Nat} {l : List α} {x : α}
    (h : firstDesc key l = some x) : x ∈ l ∧ ∀ y ∈ l, key y ≤ key x := by
  rw [firstDesc] at h
  cases hs : sortDesc key l with
  | nil => rw [hs] at h; simp at h
  | cons w ws =>
    rw [hs] at h
    simp only [List.head?_cons, Option.some.injEq] at h
    subst h
    refine ⟨(@mem_sortDesc _ key _ _).mp ?_, sortDesc_head_max hs⟩
    rw [hs]
    exact List.mem_cons_self _ _

/-- On a list whose `f`-projections are distinct, a filter that pins the
`f`-projection keeps at most one element. -/
theorem length_filter_le_one {f : α → Nat} {p : α → Bool} {e : Nat} :
    ∀ {l : List α}, (l.map f).Nodup → (∀ x, p x = true → f x = e) →
      (l.filter p).length ≤ 1 := by
  intro l
  induction l with
  | nil => intro _ _; simp
  | cons x xs ih =>
    intro hnd hp
    simp only [List.map_cons, List.nodup_cons] at hnd
    obtain ⟨hx, hxs⟩ := hnd
    by_cases hpx : p x = true
    · have hnil : xs.filter p = [] := by
        rw [List.filter_eq_nil_iff]
        intro a ha hpa
        exact hx (List.mem_map.mpr ⟨a, ha, ((hp a hpa).trans (hp x hpx).symm)⟩)
      simp [List.filter_cons, hpx, hnil]
    · simpa [List.filter_cons, hpx] using ih hxs hp

theorem getByExternalId_ok_iff {l : List Consultation} {e : Nat}
    {c : Consultation} (h : (l.map Consultation.external_id).Nodup) :
    getByExternalId l e = Except.ok c ↔ c ∈ l ∧ c.external_id = e := by
  have hlen : (l.filter (fun x => x.external_id == e)).length ≤ 1 :=
    length_filter_le_one h (fun x hx => by simpa using hx)
  have hmem : ∀ x : Consultation,
      x ∈ l.filter (fun y => y.external_id == e) ↔
        x ∈ l ∧ x.external_id = e := by
    intro x; simp [List.mem_filter]
  rw [getByExternalId]
  cases hm : l.filter (fun x => x.external_id == e) with
  | nil =>
    simp only [reduceCtorEq, false_iff]
    intro hc
    have := (hmem c).mpr hc
    rw [hm] at this
    exact absurd this (List.not_mem_nil c)
  | cons c1 t =>
    cases t with
    | nil =>
      simp only [Except.ok.injEq]
      constructor
      · rintro rfl
        refine (hmem c1).mp ?_
        rw [hm]
        exact List.mem_singleton.mpr rfl
      · intro hc
        have := (hmem c).mpr hc
        rw [hm] at this
        exact (List.mem_singleton.mp this).symm
    | cons c2 t2 =>
      rw [hm] at hlen
      simp at hlen

theorem getByExternalId_notFound_iff {l : List Consultation} {e : Nat} :
    getByExternalId l e = Except.error ApiError.notFound ↔
      ∀ c ∈ l, c.external_id ≠ e := by
  rw [getByExternalId]
  cases hm : l.filter (fun x => x.external_id == e) with
  | nil =>
    simp only [true_iff]
    intro c hc hce
    have : c ∈ l.filter (fun x => x.external_id == e) :=
      List.mem_filter.mpr ⟨hc, by simp [hce]⟩
    rw [hm] at this
    exact absurd this (List.not_mem_nil c)
  | cons c1 t =>
    have hc1 : c1 ∈ l.filter (fun x => x.external_id == e) :=
      hm ▸ List.mem_cons_self c1 t
    obtain ⟨hc1l, hc1e⟩ := List.mem_filter.mp hc1
    have : ¬ (∀ c ∈ l, c.external_id ≠ e) := by
      intro hall
      exact hall c1 hc1l (by simpa using hc1e)
    cases t with
    | nil => simpa using this
    | cons c2 t2 => simpa using this

theorem mem_list_consultations {db : DB} {user : User} {allowed : List Nat}
    {c : Consultation} :
    c ∈ list_consultations db user allowed ↔
      c ∈ db.consultations ∧ consultationPredicate user allowed c = true := by
  rw [list_consultations, mem_sortDesc, List.mem_filter]

theorem nodup_ext_list_consultations {db : DB} {user : User}
    {allowed : List Nat}
    (hN : (db.consultations.map Consultation.external_id).Nodup) :
    ((list_consultations db user allowed).map
      Consultation.external_id).Nodup := by
  refine ((sortDesc_perm Consultation.id
      (db.consultations.filter (consultationPredicate user allowed))).map
        Consultation.external_id).nodup_iff.mpr ?_
  exact List.Nodup.sublist
    ((List.filter_sublist db.consultations).map Consultation.external_id) hN

theorem applyDischarge_pred (user : User) (allowed : List Nat)
    (c : Consultation) (d : DischargePayload) :
    consultationPredicate user allowed (applyDischarge c d)
      = consultationPredicate user allowed c := rfl

theorem dischargedDB_map_ext (db : DB) (c : Consultation)
    (d : DischargePayload) :
    (dischargedDB db c d).consultations.map Consultation.external_id
      = db.consultations.map Consultation.external_id := by
  simp only [dischargedDB, List.map_map]
  apply List.map_congr_left
  intro x _
  by_cases hid : (x.id == c.id) = true <;>
    simp [Function.comp, applyDischarge, hid]

theorem mem_dischargedDB {db : DB} {c : Consultation} {d : DischargePayload}
    (hmem : c ∈ db.consultations) :
    applyDischarge c d ∈ (dischargedDB db c d).consultations := by
  simp only [dischargedDB]
  exact List.mem_map.mpr ⟨c, hmem, by simp⟩

theorem dischargedDB_idem (db : DB) (c : Consultation)
    (d : DischargePayload) :
    dischargedDB (dischargedDB db c d) (applyDischarge c d) d
      = dischargedDB db c d := by
  simp only [dischargedDB, List.map_map]
  congr 1
  apply List.map_congr_left
  intro x _
  by_cases hid : (x.id == c.id) = true <;>
    simp [Function.comp, applyDischarge, hid]

/-! ## Theorems about the access predicate (spec section 4.1) -/

/-- C2: for every superuser the consultation predicate matches every record,
whatever the record's facility, state or district and whatever the user's
other attributes. -/
theorem superuser_predicate_matches_all (user : User) (allowed : List Nat)
    (c : Consultation) (h : user.is_superuser = true) :
    consultationPredicate user allowed c = true := by
  simp [consultationPredicate, h]

/-- Witness for `superuser_predicate_matches_all` at a concrete superuser
and record. -/
theorem superuser_predicate_matches_all_witness :
    consultationPredicate
      ⟨true, 0, 1, 2, none⟩ []
      ⟨1, 10, ⟨100, false, ⟨7, 9, 9⟩, none⟩, ⟨8, 3, 4⟩, none, none, none⟩
      = true :=
  superuser_predicate_matches_all _ _ _ rfl

/-- C3: for a non-superuser with tier at or above StateLabAdmin, the
predicate matches a record iff the consultation's patient's facility's
state equals the user's state; district and home-facility conditions play
no role. -/
theorem state_tier_predicate_iff (user : User) (allowed : List Nat)
    (c : Consultation) (hsup : user.is_superuser = false)
    (htier : stateLabAdminTier ≤ user.user_type) :
    consultationPredicate user allowed c = true ↔
      c.patient.facility.state = user.state := by
  simp [consultationPredicate, hsup, htier]

/-- Witness for `state_tier_predicate_iff`: a concrete StateLabAdmin sees a
record exactly when the states agree. -/
theorem state_tier_predicate_iff_witness :
    consultationPredicate
      ⟨false, 35, 9, 2, none⟩ []
      ⟨1, 10, ⟨100, false, ⟨7, 9, 5⟩, none⟩, ⟨8, 3, 4⟩, none, none, none⟩
      = true :=
  (state_tier_predicate_iff ⟨false, 35, 9, 2, none⟩ []
      ⟨1, 10, ⟨100, false, ⟨7, 9, 5⟩, none⟩, ⟨8, 3, 4⟩, none, none, none⟩
      rfl (by decide)).mpr rfl

/-- C4: for a non-superuser with tier at or above DistrictLabAdmin but
below StateLabAdmin, the predicate matches a record iff the consultation's
patient's facility's district equals the user's district. -/
theorem district_tier_predicate_iff (user : User) (allowed : List Nat)
    (c : Consultation) (hsup : user.is_superuser = false)
    (hlo : districtLabAdminTier ≤ user.user_type)
    (hhi : user.user_type < stateLabAdminTier) :
    consultationPredicate user allowed c = true ↔
      c.patient.facility.district = user.district := by
  simp [consultationPredicate, hsup, hlo, Nat.not_le.mpr hhi]

/-- Witness for `district_tier_predicate_iff`: a concrete DistrictLabAdmin
sees a record exactly when the districts agree. -/
theorem district_tier_predicate_iff_witness :
    consultationPredicate
      ⟨false, 25, 9, 6, none⟩ []
      ⟨1, 10, ⟨100, false, ⟨7, 1, 6⟩, none⟩, ⟨8, 3, 4⟩, none, none, none⟩
      = true :=
  (district_tier_predicate_iff ⟨false, 25, 9, 6, none⟩ []
      ⟨1, 10, ⟨100, false, ⟨7, 1, 6⟩, none⟩, ⟨8, 3, 4⟩, none, none, none⟩
      rfl (by decide) (by decide)).mpr rfl

/-- C5: for a general authenticated user (not superuser, below
DistrictLabAdmin), with `allowed` the accessible-facility set, the
predicate matches iff (the patient is active and its facility is in
`allowed`) or the consultation's facility is the user's home facility. -/
theorem general_user_predicate_iff (user : User) (allowed : List Nat)
    (c : Consultation) (hsup : user.is_superuser = false)
    (htier : user.user_type < districtLabAdminTier) :
    consultationPredicate user allowed c = true ↔
      (c.patient.is_active = true ∧ c.patient.facility.id ∈ allowed)
        ∨ user.home_facility = some c.facility.id := by
  have h1 : ¬ stateLabAdminTier ≤ user.user_type := by
    simp only [stateLabAdminTier, districtLabAdminTier] at *
    omega
  simp [consultationPredicate, hsup, h1, Nat.not_le.mpr htier]

/-- Witness for `general_user_predicate_iff`: a concrete general user sees
an active patient of an accessible facility, from outside the home
facility. -/
theorem general_user_predicate_iff_witness :
    consultationPredicate
      ⟨false, 10, 9, 6, some 50⟩ [7]
      ⟨1, 10, ⟨100, true, ⟨7, 1, 2⟩, none⟩, ⟨8, 3, 4⟩, none, none, none⟩
      = true :=
  (general_user_predicate_iff ⟨false, 10, 9, 6, some 50⟩ [7]
      ⟨1, 10, ⟨100, true, ⟨7, 1, 2⟩, none⟩, ⟨8, 3, 4⟩, none, none, none⟩
      rfl (by decide)).mpr (Or.inl ⟨rfl, by decide⟩)

/-- C10: for a general authenticated user the predicate does not depend on
whether the patient is assigned to anyone: two records identical except for
the patient's `assigned_to` attribute get the same answer. -/
theorem predicate_ignores_assigned_to (user : User) (allowed : List Nat)
    (c : Consultation) (a : Option Nat) (hsup : user.is_superuser = false)
    (htier : user.user_type < districtLabAdminTier) :
    consultationPredicate user allowed (setAssignedTo c a)
      = consultationPredicate user allowed c := by
  simp [consultationPredicate, setAssignedTo]

/-! ## Concrete records for counterexamples and witnesses -/

/-- A concrete facility. -/
def exFacility : Facility := ⟨1, 1, 1⟩

/-- A concrete active patient in `exFacility`. -/
def exPatient : Patient := ⟨500, true, exFacility, none⟩

/-- A concrete consultation of `exPatient`, placed in bed assignment 70. -/
def exConsultation : Consultation := ⟨1, 10, exPatient, exFacility, some 70, none, none⟩

/-- A concrete bed. -/
def exBed : Bed := ⟨7, 700⟩

/-- A concrete open consultation-bed assignment carrying asset 3. -/
def exConsultationBed : ConsultationBed := ⟨70, exBed, [3], none⟩

/-- The asset bound to the asset user's device. -/
def exAsset : Asset := ⟨3, 1, []⟩

/-- A concrete store holding the records above. -/
def exDB : DB := ⟨[exConsultation], [], [exConsultationBed], []⟩

/-- A general authenticated user with no accessible facility and no home
facility: the section 4.1 predicate rejects every record for them. -/
def exLowUser : User := ⟨false, 10, 9, 9, none⟩

/-- A concrete superuser. -/
def exSuperUser : User := ⟨true, 40, 1, 1, none⟩

/-! ## The visibility invariant (C1) -/

/-- C1 (amended): the consultation list/retrieve queryset returns a record
if and only if the section 4.1 access predicate holds for that record and
the requesting user. -/
theorem list_consultations_mem_iff (db : DB) (user : User)
    (allowed : List Nat) (c : Consultation) :
    c ∈ list_consultations db user allowed ↔
      c ∈ db.consultations ∧ consultationPredicate user allowed c = true := by
  rw [list_consultations, mem_sortDesc, List.mem_filter]

/-- C1 counterexample: the asset-to-patient lookup returns consultation
`exConsultation` (external id 10, serialized in the composite object)
although the section 4.1 predicate is false for the requesting asset-bound
user, so an operation of the program does bypass the predicate. -/
theorem patient_from_asset_bypasses_predicate :
    patient_from_asset exDB exAsset none
        = Except.ok ⟨500, 10, 700, []⟩
      ∧ exConsultation ∈ exDB.consultations
      ∧ exConsultation.external_id = 10
      ∧ consultationPredicate exLowUser [] exConsultation = false :=
  ⟨rfl, by decide, rfl, by decide⟩

/-- Witness for `list_consultations_mem_iff` at concrete inputs: the
superuser's list contains the stored consultation. -/
theorem list_consultations_mem_iff_witness :
    exConsultation ∈ list_consultations exDB exSuperUser [] :=
  (list_consultations_mem_iff exDB exSuperUser [] exConsultation).mpr
    ⟨by decide, by decide⟩

/-- Witness for `predicate_ignores_assigned_to` at a concrete general user:
assigning the patient to that user does not change the predicate. -/
theorem predicate_ignores_assigned_to_witness :
    consultationPredicate ⟨false, 10, 9, 6, none⟩ []
      (setAssignedTo
        ⟨1, 10, ⟨100, true, ⟨7, 1, 2⟩, none⟩, ⟨8, 3, 4⟩, none, none, none⟩
        (some 42))
      = consultationPredicate ⟨false, 10, 9, 6, none⟩ []
        ⟨1, 10, ⟨100, true, ⟨7, 1, 2⟩, none⟩, ⟨8, 3, 4⟩, none, none, none⟩ :=
  predicate_ignores_assigned_to ⟨false, 10, 9, 6, none⟩ []
    ⟨1, 10, ⟨100, true, ⟨7, 1, 2⟩, none⟩, ⟨8, 3, 4⟩, none, none, none⟩
    (some 42) rfl (by decide)

/-! ## Consent visibility (C6) -/

/-- C6: with distinct consultation external ids, (a) if no stored
consultation with the path-supplied identifier is visible to the user,
the consent operations fail with NotFound rather than answering an empty
list; (b) a consent is returned iff it is stored and its parent
consultation carries the path identifier, is stored, and satisfies the
user's section 4.1 predicate; (c) hence every returned consent's parent
consultation is itself in the user's visible consultation queryset. -/
theorem consent_visibility_spec (db : DB) (user : User) (allowed : List Nat)
    (e : Nat)
    (hN : (db.consultations.map Consultation.external_id).Nodup) :
    ((¬ ∃ c ∈ db.consultations, c.external_id = e ∧
        consultationPredicate user allowed c = true) →
      consent_list db user allowed e = Except.error ApiError.notFound)
    ∧ (∀ k : Consent,
        (∃ l, consent_list db user allowed e = Except.ok l ∧ k ∈ l) ↔
          (k ∈ db.consents ∧ ∃ c ∈ db.consultations,
            c.external_id = e ∧ consultationPredicate user allowed c = true
              ∧ k.consultation = c.id))
    ∧ (∀ l k, consent_list db user allowed e = Except.ok l → k ∈ l →
        ∃ c ∈ get_consultation_queryset db user allowed,
          k.consultation = c.id) := by
  have hN2 : ((get_consultation_queryset db user allowed).map
      Consultation.external_id).Nodup :=
    List.Nodup.sublist
      ((List.filter_sublist db.consultations).map Consultation.external_id) hN
  have hmem_q : ∀ c : Consultation,
      c ∈ get_consultation_queryset db user allowed ↔
        c ∈ db.consultations ∧ consultationPredicate user allowed c = true := by
    intro c
    simp [get_consultation_queryset, List.mem_filter]
  refine ⟨?_, ?_, ?_⟩
  · intro hno
    have hnf : getByExternalId (get_consultation_queryset db user allowed) e
        = Except.error ApiError.notFound := by
      rw [getByExternalId_notFound_iff]
      intro c hc hce
      obtain ⟨hcd, hcp⟩ := (hmem_q c).mp hc
      exact hno ⟨c, hcd, hce, hcp⟩
    simp [consent_list, get_consultation_obj, hnf, Except.map]
  · intro k
    cases hobj : getByExternalId (get_consultation_queryset db user allowed) e with
    | error err =>
      have hcl : consent_list db user allowed e = Except.error err := by
        rw [consent_list, get_consultation_obj, hobj]
        rfl
      constructor
      · rintro ⟨l, hl, -⟩
        rw [hcl] at hl
        exact absurd hl (by simp)
      · rintro ⟨hk, c, hc, he, hcp, hkc⟩
        have hok := (getByExternalId_ok_iff hN2).mpr
          ⟨(hmem_q c).mpr ⟨hc, hcp⟩, he⟩
        rw [hobj] at hok
        exact absurd hok (by simp)
    | ok obj =>
      obtain ⟨hobjq, hobje⟩ := (getByExternalId_ok_iff hN2).mp hobj
      obtain ⟨hobjd, hobjp⟩ := (hmem_q obj).mp hobjq
      simp only [consent_list, get_consultation_obj, hobj, Except.map,
        Except.ok.injEq]
      constructor
      · rintro ⟨l, rfl, hkl⟩
        obtain ⟨hk, hkc⟩ := List.mem_filter.mp hkl
        exact ⟨hk, obj, hobjd, hobje, hobjp, by simpa using hkc⟩
      · rintro ⟨hk, c, hc, he, hcp, hkc⟩
        have hok := (getByExternalId_ok_iff hN2).mpr
          ⟨(hmem_q c).mpr ⟨hc, hcp⟩, he⟩
        rw [hobj] at hok
        obtain rfl : obj = c := by simpa using hok
        exact ⟨_, rfl, List.mem_filter.mpr ⟨hk, by simpa using hkc⟩⟩
  · intro l k hl hkl
    cases hobj : getByExternalId (get_consultation_queryset db user allowed) e with
    | error err =>
      rw [consent_list, get_consultation_obj, hobj] at hl
      exact absurd hl (by simp [Except.map])
    | ok obj =>
      obtain ⟨hobjq, -⟩ := (getByExternalId_ok_iff hN2).mp hobj
      rw [consent_list, get_consultation_obj, hobj] at hl
      obtain rfl : (db.consents.filter (fun x => x.consultation == obj.id)) = l := by
        simpa [Except.map] using hl
      obtain ⟨-, hkc⟩ := List.mem_filter.mp hkl
      exact ⟨obj, hobjq, by simpa using hkc⟩

/-- Witness for `consent_visibility_spec`: in the concrete store no
consultation with external id 99 is visible to the general user, so the
consent operations answer NotFound. -/
theorem consent_visibility_spec_witness :
    consent_list exDB exLowUser [] 99 = Except.error ApiError.notFound :=
  (consent_visibility_spec exDB exLowUser [] 99 (by decide)).1 (by decide)

/-! ## Discharge (C7) -/

/-- C7: for a stored consultation visible to the requester (with distinct
external ids), the discharge action succeeds with status 200 and no body
content, the discharged row has `current_bed` cleared and the discharge
fields populated, and a second discharge of the already-discharged
consultation still resolves, succeeds the same way, and leaves the store
unchanged (idempotent terminal state). -/
theorem discharge_spec (db : DB) (user : User) (allowed : List Nat)
    (c : Consultation) (d : DischargePayload)
    (hN : (db.consultations.map Consultation.external_id).Nodup)
    (hmem : c ∈ db.consultations)
    (hpred : consultationPredicate user allowed c = true) :
    discharge_patient db user allowed c.external_id d
        = Except.ok (dischargedDB db c d, ⟨200, none⟩)
      ∧ applyDischarge c d ∈ (dischargedDB db c d).consultations
      ∧ (applyDischarge c d).current_bed = none
      ∧ (applyDischarge c d).discharge_date = some d.discharge_date
      ∧ (applyDischarge c d).discharge_reason = some d.discharge_reason
      ∧ discharge_patient (dischargedDB db c d) user allowed
          c.external_id d
          = Except.ok (dischargedDB db c d, ⟨200, none⟩) := by
  have hget : getByExternalId (list_consultations db user allowed)
      c.external_id = Except.ok c :=
    (getByExternalId_ok_iff (nodup_ext_list_consultations hN)).mpr
      ⟨mem_list_consultations.mpr ⟨hmem, hpred⟩, rfl⟩
  have hN2 : ((dischargedDB db c d).consultations.map
      Consultation.external_id).Nodup := by
    rw [dischargedDB_map_ext]; exact hN
  have hget2 : getByExternalId
      (list_consultations (dischargedDB db c d) user allowed)
      c.external_id = Except.ok (applyDischarge c d) :=
    (getByExternalId_ok_iff (nodup_ext_list_consultations hN2)).mpr
      ⟨mem_list_consultations.mpr
        ⟨mem_dischargedDB hmem, (applyDischarge_pred user allowed c d).trans hpred⟩,
       rfl⟩
  refine ⟨?_, mem_dischargedDB hmem, rfl, rfl, rfl, ?_⟩
  · simp [discharge_patient, hget, Except.map]
  · simp only [discharge_patient, hget2, Except.map, Except.ok.injEq]
    rw [dischargedDB_idem]

/-- Witness for `discharge_spec`: the superuser discharges the stored
consultation; the action answers 200 with no body and clears the bed. -/
theorem discharge_spec_witness :
    discharge_patient exDB exSuperUser [] 10 ⟨77, 3⟩
        = Except.ok (dischargedDB exDB exConsultation ⟨77, 3⟩, ⟨200, none⟩)
      ∧ (applyDischarge exConsultation ⟨77, 3⟩).current_bed = none :=
  ⟨(discharge_spec exDB exSuperUser [] exConsultation ⟨77, 3⟩
      (by decide) (by decide) (by decide)).1,
   (discharge_spec exDB exSuperUser [] exConsultation ⟨77, 3⟩
      (by decide) (by decide) (by decide)).2.2.1⟩

/-! ## Asset-to-patient lookup (C8) -/

/-- C8: the asset-to-patient lookup fails with NotFound when no open
consultation-bed assignment references the caller's asset or a linked bed;
otherwise it runs on an assignment of maximal id among those, and fails
with NotFound when no active-patient consultation is placed in that bed,
else succeeds on a qualifying consultation of maximal id with the
composite object `{patient_id, consultation_id, bed_id, asset_beds}`. -/
theorem patient_from_asset_spec (db : DB) (asset : Asset)
    (pn : Option String) :
    (db.consultationBeds.filter (openAssignmentFor asset) = [] →
      patient_from_asset db asset pn = Except.error ApiError.notFound)
    ∧ (db.consultationBeds.filter (openAssignmentFor asset) ≠ [] →
        ∃ cb ∈ db.consultationBeds.filter (openAssignmentFor asset),
          (∀ cb2 ∈ db.consultationBeds.filter (openAssignmentFor asset),
            cb2.id ≤ cb.id)
          ∧ (db.consultations.filter (activeInBed cb) = [] →
              patient_from_asset db asset pn = Except.error ApiError.notFound)
          ∧ (db.consultations.filter (activeInBed cb) ≠ [] →
              ∃ c ∈ db.consultations.filter (activeInBed cb),
                (∀ c2 ∈ db.consultations.filter (activeInBed cb),
                  c2.id ≤ c.id)
                ∧ patient_from_asset db asset pn = Except.ok
                    ⟨c.patient.external_id, c.external_id,
                     cb.bed.external_id,
                     presetAssetBeds db asset cb.bed.id pn⟩)) := by
  cases h1 : firstDesc ConsultationBed.id
      (db.consultationBeds.filter (openAssignmentFor asset)) with
  | none =>
    have hnil := firstDesc_eq_none.mp h1
    refine ⟨fun _ => ?_, fun hne => absurd hnil hne⟩
    rw [patient_from_asset, h1]
  | some cb =>
    obtain ⟨hcbmem, hcbmax⟩ := firstDesc_spec h1
    refine ⟨fun hnil => ?_, fun _ => ⟨cb, hcbmem, hcbmax, ?_, ?_⟩⟩
    · rw [hnil] at hcbmem
      exact absurd hcbmem (List.not_mem_nil cb)
    · intro hnil2
      have h2 : firstDesc Consultation.id
          (db.consultations.filter (activeInBed cb)) = none :=
        firstDesc_eq_none.mpr hnil2
      simp only [patient_from_asset, h1, h2]
    · intro hne2
      cases h2 : firstDesc Consultation.id
          (db.consultations.filter (activeInBed cb)) with
      | none => exact absurd (firstDesc_eq_none.mp h2) hne2
      | some c =>
        obtain ⟨hcmem, hcmax⟩ := firstDesc_spec h2
        refine ⟨c, hcmem, hcmax, ?_⟩
        simp only [patient_from_asset, h1, h2]

/-- Witness for `patient_from_asset_spec` in the concrete store: the
lookup resolves assignment 70 and consultation 10 and returns the
composite object. -/
theorem patient_from_asset_spec_witness :
    patient_from_asset exDB exAsset none
      = Except.ok ⟨500, 10, 700, []⟩ := by
  obtain ⟨cb, hcb, -, -, hsome⟩ :=
    (patient_from_asset_spec exDB exAsset none).2 (by decide)
  have hcbe : cb = exConsultationBed := by
    have h := hcb
    rw [show exDB.consultationBeds.filter (openAssignmentFor exAsset)
        = [exConsultationBed] from by decide] at h
    exact List.mem_singleton.mp h
  subst hcbe
  obtain ⟨c, hc, -, hres⟩ := hsome (by decide)
  have hce : c = exConsultation := by
    have h := hc
    rw [show exDB.consultations.filter (activeInBed exConsultationBed)
        = [exConsultation] from by decide] at h
    exact List.mem_singleton.mp h
  subst hce
  exact hres

/-! ## Non-atomic creation (C9) -/

theorem runSteps_append_writes (l : List RequestStep) :
    ∀ (pre : List RequestStep), (∀ st ∈ pre, st ≠ RequestStep.failStep) →
      ∀ s : List (Nat × Nat), ∃ s2 : List (Nat × Nat),
        runSteps (pre ++ l) s = runSteps l s2
        ∧ (∀ x ∈ s, x ∈ s2)
        ∧ (∀ k v, RequestStep.writeStep k v ∈ pre → (k, v) ∈ s2) := by
  intro pre
  induction pre with
  | nil =>
    intro _ s
    exact ⟨s, rfl, fun x hx => hx, fun k v hkv => absurd hkv (List.not_mem_nil _)⟩
  | cons st pre2 ih =>
    intro hnf s
    have hst : st ≠ RequestStep.failStep := hnf st (List.mem_cons_self st pre2)
    cases st with
    | failStep => exact absurd rfl hst
    | writeStep k0 v0 =>
      obtain ⟨s2, heq, hkeep, hwr⟩ :=
        ih (fun st2 hst2 => hnf st2 (List.mem_cons_of_mem _ hst2)) ((k0, v0) :: s)
      refine ⟨s2, heq, fun x hx => hkeep x (List.mem_cons_of_mem _ hx), ?_⟩
      intro k v hkv
      rcases List.mem_cons.mp hkv with hhd | htl
      · obtain ⟨rfl, rfl⟩ : k = k0 ∧ v = v0 := by
          simpa using hhd
        exact hkeep (k, v) (List.mem_cons_self _ _)
      · exact hwr k v htl

/-- C9: creation is exempt from the ambient all-or-nothing wrapper: when a
creation request fails after some writes, the run reports failure but every
write made before the failure is still in the store, while the ambient
atomic wrapper would have restored the initial store. -/
theorem create_failure_keeps_prior_writes (pre rest : List RequestStep)
    (s : List (Nat × Nat))
    (h : ∀ st ∈ pre, st ≠ RequestStep.failStep) :
    (runCreateRequest (pre ++ RequestStep.failStep :: rest) s).2 = false
    ∧ (∀ k v, RequestStep.writeStep k v ∈ pre →
        (k, v) ∈ (runCreateRequest (pre ++ RequestStep.failStep :: rest) s).1)
    ∧ runAtomicRequest (pre ++ RequestStep.failStep :: rest) s
        = (s, false) := by
  obtain ⟨s2, heq, -, hwr⟩ :=
    runSteps_append_writes (RequestStep.failStep :: rest) pre h s
  have hrun : runSteps (pre ++ RequestStep.failStep :: rest) s = (s2, false) := by
    rw [heq]; rfl
  have hcreate : runCreateRequest (pre ++ RequestStep.failStep :: rest) s
      = (s2, false) := by
    rw [runCreateRequest, createExemptFromAtomicRequests, if_pos rfl,
      runNonAtomicRequest, hrun]
  refine ⟨by rw [hcreate], ?_, ?_⟩
  · intro k v hkv
    rw [hcreate]
    exact hwr k v hkv
  · rw [runAtomicRequest, hrun]
    simp

/-- Witness for `create_failure_keeps_prior_writes`: a request that writes
key 1 and then fails keeps the write in the store. -/
theorem create_failure_keeps_prior_writes_witness :
    (1, 2) ∈ (runCreateRequest
      ([RequestStep.writeStep 1 2] ++ RequestStep.failStep :: []) []).1 :=
  (create_failure_keeps_prior_writes [RequestStep.writeStep 1 2] [] []
      (by decide)).2.1 1 2 (by decide)

end Care
